import Mathlib

/-!
# Verification of the async DNS transport layer (`dns/asyncquery.py`)

A shallow embedding of the module's deadline arithmetic, source-tuple
construction, TCP framing, exact-count stream reads, UDP reply filtering, the
UDP/TCP/TLS exchange control flow (socket ownership and release), and the
UDP-to-TCP truncation fallback, together with theorems settling the spec's
claims about them.

Wall-clock times and timeout budgets are modelled as rationals; byte strings as
lists of naturals; DNS messages, whose encoding and decoding is an external
collaborator, as opaque numeric identifiers.  Coroutine suspension points that
can fail (socket creation, sends, receives, peer lookup) take their outcome
from an explicit environment, so theorems quantifying over environments cover
every exit path of an exchange.
-/

set_option autoImplicit false

namespace AsyncQuery

/-- Address families: `socket.AF_INET`, `socket.AF_INET6`, or anything else. -/
inductive AF where
  | inet
  | inet6
  | other (n : Nat)
  deriving DecidableEq, Repr

/-- High-level address tuple `(address, port)` as used for matching and
display (`receive_udp` compares the components after the address, which for
these tuples is the port). -/
structure HLAddr where
  addr : String
  port : Nat
  deriving DecidableEq, Repr

/-- Exceptions raised or propagated by the exchange code.  `blocked` stands for
a coroutine suspending forever because the modelled peer delivers no further
data; `unboundLocalDestination` is Python's `UnboundLocalError` for the name
`destination`; `other` covers arbitrary further exceptions so that theorems
quantifying over environments cover every exception path. -/
inductive Exc where
  | timeoutErr
  | badResponse
  | truncated
  | unexpectedSource (fromAddr destination : HLAddr)
  | eofErr
  | notImplementedErr
  | unboundLocalDestination
  | structErr
  | valueErr
  | blocked
  | other (n : Nat)
  deriving DecidableEq, Repr

/-- Python's `_timeout(expiration, now)`: the remaining budget
`max(expiration - now, 0)` when a deadline exists, else `None`.  Python
truthiness makes an expiration of `0.0` falsy, hence treated as no deadline;
callers that omit `now` pass the current wall-clock time, which this model
takes explicitly (the code's `if not now: now = time.time()`). -/
def timeoutRemaining (expiration : Option ℚ) (now : ℚ) : Option ℚ :=
  match expiration with
  | none => none
  | some e => if e = 0 then none else some (max (e - now) 0)

/-- Python truthiness of an optional address string: `None` and `''` are
falsy. -/
def addrTruthy : Option String → Bool
  | none => false
  | some s => s ≠ ""

/-- Python's `_source_tuple(af, address, port)`: build a high-level source
tuple, or `none` when address and port are both falsy (`None` / `0`).  When a
truthy port is given with no address, the wildcard address for the family is
substituted, and an unrecognized family raises `NotImplementedError`. -/
def source_tuple (af : AF) (address : Option String) (port : Nat) :
    Except Exc (Option (String × Nat)) :=
  if addrTruthy address ∨ port ≠ 0 then
    match address with
    | none =>
      match af with
      | .inet => .ok (some ("0.0.0.0", port))
      | .inet6 => .ok (some ("::", port))
      | .other _ => .error .notImplementedErr
    | some a => .ok (some (a, port))
  else
    .ok none

/-- Byte strings are lists of byte values. -/
abbrev Bytes := List Nat

/-- Python's `struct.pack("!H", l)`: two big-endian bytes; `struct.error`
unless `0 ≤ l ≤ 65535`. -/
def pack16be (l : Nat) : Except Exc Bytes :=
  if l ≤ 65535 then .ok [l / 256, l % 256] else .error .structErr

/-- Python's `struct.unpack("!H", ldata)` on the two-byte length header
(`_read_exactly(sock, 2, ...)` delivers exactly two bytes to it). -/
def unpack16be : Bytes → Nat
  | b0 :: b1 :: _ => b0 * 256 + b1
  | _ => 0

/-- Record of the single `sock.sendall(tcpmsg, expiration)` call `send_tcp`
performs: the whole framed buffer, and the value the code passes in the
`timeout` position — the raw absolute `expiration`. -/
structure SendallCall where
  data : Bytes
  timeoutArg : Option ℚ
  deriving DecidableEq, Repr

/-- Model of `send_tcp(sock, what, expiration)`: pack a 2-byte big-endian
length header, concatenate the payload, and hand the whole buffer to one
`sendall`; the numeric result is the code's `len(tcpmsg)` return component.
Packing fails with `struct.error` before anything is sent when the payload
exceeds 65535 bytes. -/
def send_tcp (what : Bytes) (expiration : Option ℚ) :
    Except Exc (SendallCall × Nat) :=
  match pack16be what.length with
  | .error e => .error e
  | .ok hdr => .ok ({ data := hdr ++ what, timeoutArg := expiration }, (hdr ++ what).length)

/-- Model of `_read_exactly(sock, count, expiration)`: repeatedly `recv` until
`count` bytes are accumulated in `acc` (the code's `s`, initially `b''`).  The
stream is modelled by the list of chunks successive `recv` calls return; an
empty chunk is Python's `b''`, the end-of-stream signal, raising `EOFError`.
`count` is an `Int` because Python's counter would go negative if a `recv`
returned more than requested.  An exhausted chunk list while bytes are still
owed means the coroutine would suspend with no data forthcoming, modelled as
`blocked`.  On return the unconsumed chunks are handed back alongside the
accumulated bytes. -/
def read_exactly : Int → Bytes → List Bytes → Except Exc (Bytes × List Bytes)
  | count, acc, [] => if count ≤ 0 then .ok (acc, []) else .error .blocked
  | count, acc, n :: rest =>
    if count ≤ 0 then .ok (acc, n :: rest)
    else if n = [] then .error .eofErr
    else read_exactly (count - (n.length : Int)) (acc ++ n) rest

/-- Entry point of `_read_exactly`, starting from the empty accumulator. -/
def readExact (count : Int) (chunks : List Bytes) : Except Exc (Bytes × List Bytes) :=
  read_exactly count [] chunks

/-- Stream contract of spec §4.2: `receive(maxBytes, ...)` returns at most
`maxBytes` bytes.  `chunksFit count chunks` says every chunk consumed while
bytes are still owed respects the size `_read_exactly` asked for. -/
def chunksFit : Int → List Bytes → Bool
  | _, [] => true
  | count, n :: rest =>
    count ≤ 0 || (((n.length : Int) ≤ count) && chunksFit (count - (n.length : Int)) rest)

/-- Predicate mirroring the run of `_read_exactly`: some `recv` returns zero
bytes while bytes are still owed. -/
def hitsEof : Int → List Bytes → Bool
  | _, [] => false
  | count, n :: rest =>
    if count ≤ 0 then false
    else if n = [] then true
    else hitsEof (count - (n.length : Int)) rest

/-- Model of `receive_tcp` up to message decoding: read exactly 2 bytes,
interpret them as a big-endian length, read exactly that many bytes and hand
the wire bytes to the external decode service. -/
def receiveTcpWire (chunks : List Bytes) : Except Exc (Bytes × List Bytes) :=
  match readExact 2 chunks with
  | .error e => .error e
  | .ok (ldata, rest) =>
    match readExact (unpack16be ldata) rest with
    | .error e => .error e
    | .ok (wire, rest2) => .ok (wire, rest2)

/-- Acceptance test of `receive_udp` (lines 130–132): the datagram's source
equals the expected destination, or the destination address is a multicast
group and the tuple components after the address (the port) match.  Address
equality is modelled from the spec: the source must equal the expected source
exactly (the helper `_addresses_equal` lives in `dns.query`, outside this
module); multicast classification is the external `dns.inet.is_multicast`
collaborator, taken as a parameter. -/
def acceptReply (isMulticast : String → Bool) (destination fromAddr : HLAddr) : Bool :=
  decide (fromAddr = destination) ||
    (isMulticast destination.addr && decide (fromAddr.port = destination.port))

/-- Model of the receive loop of `receive_udp` (lines 127–137): read datagrams
until one is acceptable; an unacceptable one raises `UnexpectedSource` naming
both addresses unless `ignore_unexpected` is set, in which case it is
discarded and the loop reads the next.  The socket is modelled by the list of
datagrams it will deliver (an exhausted list means the loop would suspend);
decoding of the accepted wire is the external decode collaborator and is not
modelled here. -/
def receiveUdpLoop (isMulticast : String → Bool) (destination : HLAddr)
    (ignoreUnexpected : Bool) : List (Bytes × HLAddr) → Except Exc (Bytes × HLAddr)
  | [] => .error .blocked
  | (wire, fromAddr) :: rest =>
    if acceptReply isMulticast destination fromAddr then .ok (wire, fromAddr)
    else if ignoreUnexpected then receiveUdpLoop isMulticast destination ignoreUnexpected rest
    else .error (.unexpectedSource fromAddr destination)

/-- Argument occupying the `timeout` position of a suspending socket call. -/
inductive TimeoutArg where
  | omitted
  | passed (v : Option ℚ)
  deriving DecidableEq, Repr

/-- Transcript of line 86, in `send_udp`: the code calls
`sock.sendto(what, destination, _timeout(expiration, sent_time))`, a remaining
budget freshly computed at the send time. -/
def sendtoTimeoutArg (expiration : Option ℚ) (sentTime : ℚ) : TimeoutArg :=
  .passed (timeoutRemaining expiration sentTime)

/-- Transcript of line 129, in `receive_udp`: the code calls
`sock.recvfrom(65535)` with the timeout position empty — neither a remaining
budget nor any deadline reaches the receive call. -/
def recvfromTimeoutArg : TimeoutArg := .omitted

/-- Transcript of line 309, in `_read_exactly`: the code calls
`sock.recv(count, _timeout(expiration))`, a remaining budget freshly computed
at each read (`_timeout` with `now` omitted reads the current clock). -/
def recvTimeoutArg (expiration : Option ℚ) (now : ℚ) : TimeoutArg :=
  .passed (timeoutRemaining expiration now)

/-- Socket handles are opaque identifiers handed out by the backend. -/
abbrev SockId := Nat

/-- TLS context values: the caller's own context (identified by a tag) or a
freshly created `ssl.create_default_context()` whose `check_hostname` flag
records whether a server hostname was known at creation time. -/
inductive CtxV where
  | supplied (tag : Nat)
  | defaultCtx (checkHostname : Bool)
  deriving DecidableEq, Repr

/-- Observable transport-layer effects of one exchange.  The stream-socket
creation records the values occupying the `ssl_context` and `server_hostname`
positions of `backend.make_socket` (plain `tcp` passes neither, i.e. the
backend defaults of `None`). -/
inductive Effect where
  | makeDgram (stuple : Option (String × Nat))
  | makeStream (stuple : Option (String × Nat)) (ctx : Option CtxV)
      (serverHostname : Option String)
  | getpeername (s : SockId)
  | sendto (s : SockId)
  | recvfrom (s : SockId)
  | sendall (s : SockId)
  | recvStream (s : SockId)
  | close (s : SockId)
  deriving DecidableEq, Repr

/-- Close events in a trace. -/
def isClose : Effect → Bool
  | .close _ => true
  | _ => false

/-- Arguments occupying the `ssl_context` and `server_hostname` positions of
each stream-socket creation in a trace. -/
def streamCtxArgs (tr : List Effect) : List (Option CtxV × Option String) :=
  tr.filterMap fun e =>
    match e with
    | .makeStream _ c h => some (c, h)
    | _ => none

/-- Outcomes the environment assigns to the suspending steps of a `udp`
exchange: family resolution of `where`, socket creation, `send_udp`,
`receive_udp`, plus the `q.is_response(r)` predicate of the decode
collaborator.  Quantifying over environments covers every exit path — success,
timeout, truncation, decode failure, or any other exception. -/
structure UdpEnv where
  afRes : Except Exc AF
  makeRes : Except Exc SockId
  sendRes : Except Exc Unit
  recvRes : Except Exc Nat
  isResponse : Nat → Bool

/-- Model of `udp(q, where, ...)` (lines 189–215).  With no caller socket:
resolve the family, build the source tuple, open a datagram socket and compute
`destination`; send, receive, check `q.is_response(r)`; the `finally` closes
`s` only when the exchange opened it (`if not sock and s`).  With a caller
socket the code takes the `if sock:` branch, on which `destination` is never
assigned, so evaluating the arguments of `send_udp` raises `UnboundLocalError`
before any I/O happens; the `finally` then closes nothing since `sock` is set.
Replies are opaque message identifiers; decoding is the external decode
collaborator inside `receive_udp`'s outcome. -/
def udp (sock : Option SockId) (source : Option String) (sourcePort : Nat)
    (env : UdpEnv) : Except Exc Nat × List Effect :=
  match sock with
  | some _ => (.error .unboundLocalDestination, [])
  | none =>
    match env.afRes with
    | .error e => (.error e, [])
    | .ok af =>
      match source_tuple af source sourcePort with
      | .error e => (.error e, [])
      | .ok stuple =>
        match env.makeRes with
        | .error e => (.error e, [.makeDgram stuple])
        | .ok s =>
          match env.sendRes with
          | .error e => (.error e, [.makeDgram stuple, .sendto s, .close s])
          | .ok _ =>
            match env.recvRes with
            | .error e => (.error e, [.makeDgram stuple, .sendto s, .recvfrom s, .close s])
            | .ok r =>
              if env.isResponse r then
                (.ok r, [.makeDgram stuple, .sendto s, .recvfrom s, .close s])
              else
                (.error .badResponse, [.makeDgram stuple, .sendto s, .recvfrom s, .close s])

/-- Outcomes for the suspending steps of a `tcp` exchange; `peerRes` is the
`sock.getpeername()` connectedness check run on a caller-provided socket. -/
structure TcpEnv where
  peerRes : Except Exc Unit
  afRes : Except Exc AF
  makeRes : Except Exc SockId
  sendRes : Except Exc Unit
  recvRes : Except Exc Nat
  isResponse : Nat → Bool

/-- The close the `finally` of `tcp` performs: only a socket the exchange
itself opened is closed (`if not sock and s`). -/
def closeIfOwned (owns : Bool) (s : SockId) : List Effect :=
  if owns then [Effect.close s] else []

/-- Send/receive/match tail of `tcp` (lines 412–419) plus its `finally`
(lines 420–422): `send_tcp`, `receive_tcp`, the `q.is_response(r)` check, with
the owned-socket close appended on every exit path. -/
def tcpTail (s : SockId) (owns : Bool) (env : TcpEnv) : Except Exc Nat × List Effect :=
  match env.sendRes with
  | .error e => (.error e, [Effect.sendall s] ++ closeIfOwned owns s)
  | .ok _ =>
    match env.recvRes with
    | .error e => (.error e, [Effect.sendall s, Effect.recvStream s] ++ closeIfOwned owns s)
    | .ok r =>
      if env.isResponse r then
        (.ok r, [Effect.sendall s, Effect.recvStream s] ++ closeIfOwned owns s)
      else
        (.error .badResponse, [Effect.sendall s, Effect.recvStream s] ++ closeIfOwned owns s)

/-- Model of `tcp(q, where, ...)` (lines 391–422).  A caller-provided socket
is first checked for connectedness via `getpeername` (failing fast instead of
hanging on a later write) and is never closed; otherwise the family and source
tuple are resolved and a stream socket is opened (with no TLS arguments) and
closed on every exit path. -/
def tcp (sock : Option SockId) (source : Option String) (sourcePort : Nat)
    (env : TcpEnv) : Except Exc Nat × List Effect :=
  match sock with
  | some sk =>
    match env.peerRes with
    | .error e => (.error e, [.getpeername sk])
    | .ok _ =>
      ((tcpTail sk false env).1, .getpeername sk :: (tcpTail sk false env).2)
  | none =>
    match env.afRes with
    | .error e => (.error e, [])
    | .ok af =>
      match source_tuple af source sourcePort with
      | .error e => (.error e, [])
      | .ok stuple =>
        match env.makeRes with
        | .error e => (.error e, [.makeStream stuple none none])
        | .ok s =>
          ((tcpTail s true env).1, .makeStream stuple none none :: (tcpTail s true env).2)

/-- Context policy of `tls` (lines 472–479) for the no-caller-socket case:
with no supplied context, a default context is created whose hostname checking
is disabled when no server hostname was supplied; with a supplied context the
code replaces it by `None` and clears the hostname before socket creation, so
the supplied context never reaches `make_socket`. -/
def tlsCtxArgs (sslContext : Option CtxV) (serverHostname : Option String) :
    Option CtxV × Option String :=
  match sslContext with
  | none => (some (CtxV.defaultCtx serverHostname.isSome), serverHostname)
  | some _ => (none, none)

/-- Outcomes for the steps `tls` performs itself (family resolution and stream
socket creation) before delegating to `tcp`. -/
structure TlsEnv where
  afRes : Except Exc AF
  makeRes : Except Exc SockId
  tcpEnv : TcpEnv

/-- Model of `tls(q, where, ...)` (lines 470–496).  With a caller socket, the
exchange is delegated directly to `tcp` with that socket and nothing is
closed here.  Otherwise the context policy is applied, a stream socket is
opened outside the `try` (so a creation failure closes nothing), `tcp` is run
with the new socket as its caller-provided socket (hence `tcp` closes
nothing), and the `finally` closes the self-opened socket on every exit
path. -/
def tls (sock : Option SockId) (sslContext : Option CtxV)
    (serverHostname : Option String) (source : Option String) (sourcePort : Nat)
    (env : TlsEnv) : Except Exc Nat × List Effect :=
  match sock with
  | some sk => tcp (some sk) source sourcePort env.tcpEnv
  | none =>
    match env.afRes with
    | .error e => (.error e, [])
    | .ok af =>
      match source_tuple af source sourcePort with
      | .error e => (.error e, [])
      | .ok stuple =>
        match env.makeRes with
        | .error e =>
          (.error e,
            [.makeStream stuple (tlsCtxArgs sslContext serverHostname).1
              (tlsCtxArgs sslContext serverHostname).2])
        | .ok s =>
          ((tcp (some s) source sourcePort env.tcpEnv).1,
            .makeStream stuple (tlsCtxArgs sslContext serverHostname).1
                (tlsCtxArgs sslContext serverHostname).2 ::
              (tcp (some s) source sourcePort env.tcpEnv).2 ++ [.close s])

/-- Record of the exchange calls `udp_with_fallback` makes: which exchange,
with which query, timeout and truncation-strictness arguments. -/
inductive FbCall where
  | udpCall (q : Nat) (timeout : Option ℚ) (raiseOnTruncation : Bool)
  | tcpCall (q : Nat) (timeout : Option ℚ)
  deriving DecidableEq, Repr

/-- Model of `udp_with_fallback` (lines 265–274): run the UDP exchange with
`raise_on_truncation=True`; if and only if it raises the distinct
`dns.message.Truncated` signal, run exactly one TCP exchange with the original
query and the original timeout and flag the reply as obtained over TCP; a
clean UDP reply is returned with the flag false, and any other UDP exception
propagates with no TCP exchange. -/
def udp_with_fallback (q : Nat) (timeout : Option ℚ) (udpSock tcpSock : Option SockId)
    (source : Option String) (sourcePort : Nat) (udpEnv : UdpEnv) (tcpEnv : TcpEnv) :
    Except Exc (Nat × Bool) × List FbCall :=
  match (udp udpSock source sourcePort udpEnv).1 with
  | .ok r => (.ok (r, false), [.udpCall q timeout true])
  | .error .truncated =>
    match (tcp tcpSock source sourcePort tcpEnv).1 with
    | .ok r => (.ok (r, true), [.udpCall q timeout true, .tcpCall q timeout])
    | .error e => (.error e, [.udpCall q timeout true, .tcpCall q timeout])
  | .error e => (.error e, [.udpCall q timeout true])

/-- Environment in which every step of a UDP exchange succeeds, the backend
hands out socket 4, and the reply (message 7) matches the query. -/
def sampleUdpEnv : UdpEnv :=
  { afRes := .ok .inet, makeRes := .ok 4, sendRes := .ok (), recvRes := .ok 7,
    isResponse := fun _ => true }

/-- Environment like `sampleUdpEnv` in which `receive_udp` raises the
truncation signal. -/
def truncUdpEnv : UdpEnv :=
  { sampleUdpEnv with recvRes := .error .truncated }

/-- Environment like `sampleUdpEnv` in which `receive_udp` times out. -/
def errUdpEnv : UdpEnv :=
  { sampleUdpEnv with recvRes := .error .timeoutErr }

/-- Environment in which every step of a TCP exchange succeeds, the backend
hands out socket 5, and the reply (message 8) matches the query. -/
def sampleTcpEnv : TcpEnv :=
  { peerRes := .ok (), afRes := .ok .inet, makeRes := .ok 5, sendRes := .ok (),
    recvRes := .ok 8, isResponse := fun _ => true }

/-- Environment in which every step of a TLS exchange succeeds and the backend
hands out socket 6 for the TLS stream. -/
def sampleTlsEnv : TlsEnv :=
  { afRes := .ok .inet, makeRes := .ok 6, tcpEnv := sampleTcpEnv }

theorem read_exactly_ok_length (chunks : List Bytes) :
    ∀ (count : Int) (acc out : Bytes) (rest : List Bytes),
      read_exactly count acc chunks = .ok (out, rest) →
      count + acc.length ≤ (out.length : Int) := by
  induction chunks with
  | nil =>
    intro count acc out rest h
    simp only [read_exactly] at h
    split at h
    · cases h; omega
    · cases h
  | cons n tail ih =>
    intro count acc out rest h
    simp only [read_exactly] at h
    split at h
    · rename_i hc
      cases h; omega
    · rename_i hc
      split at h
      · cases h
      · have := ih (count - (n.length : Int)) (acc ++ n) out rest h
        simp only [List.length_append] at this
        push_cast at this ⊢
        omega

theorem read_exactly_ok_exact (chunks : List Bytes) :
    ∀ (count : Int) (acc out : Bytes) (rest : List Bytes),
      chunksFit count chunks = true →
      read_exactly count acc chunks = .ok (out, rest) →
      (out.length : Int) = acc.length + max count 0 := by
  induction chunks with
  | nil =>
    intro count acc out rest hfit h
    simp only [read_exactly] at h
    split at h
    · rename_i hc
      cases h
      have : max count 0 = 0 := by omega
      simp [this]
    · cases h
  | cons n tail ih =>
    intro count acc out rest hfit h
    simp only [read_exactly] at h
    split at h
    · rename_i hc
      cases h
      have : max count 0 = 0 := by omega
      simp [this]
    · rename_i hc
      split at h
      · cases h
      · simp only [chunksFit, Bool.or_eq_true, Bool.and_eq_true, decide_eq_true_eq] at hfit
        rcases hfit with hfit | ⟨hlen, hfit⟩
        · omega
        · have := ih (count - (n.length : Int)) (acc ++ n) out rest hfit h
          simp only [List.length_append] at this
          push_cast at this ⊢
          omega

theorem read_exactly_eof_iff (chunks : List Bytes) :
    ∀ (count : Int) (acc : Bytes),
      read_exactly count acc chunks = .error .eofErr ↔ hitsEof count chunks = true := by
  induction chunks with
  | nil =>
    intro count acc
    simp only [read_exactly, hitsEof]
    split
    · simp
    · simp
  | cons n tail ih =>
    intro count acc
    simp only [read_exactly, hitsEof]
    split
    · simp
    · split
      · simp
      · exact ih (count - (n.length : Int)) (acc ++ n)

theorem read_exactly_nonpos (count : Int) (acc : Bytes) (chunks : List Bytes)
    (h : count ≤ 0) : read_exactly count acc chunks = .ok (acc, chunks) := by
  cases chunks with
  | nil => simp [read_exactly, h]
  | cons n rest => simp [read_exactly, h]

theorem read_exactly_singletons (count : Nat) :
    ∀ (bytes : Bytes) (acc : Bytes), count ≤ bytes.length →
      read_exactly (count : Int) acc (bytes.map fun b => [b]) =
        .ok (acc ++ bytes.take count, (bytes.drop count).map fun b => [b]) := by
  induction count with
  | zero =>
    intro bytes acc _
    rw [read_exactly_nonpos _ _ _ (by omega)]
    simp
  | succ k ih =>
    intro bytes acc h
    cases bytes with
    | nil => simp at h
    | cons b bs =>
      have h' : k ≤ bs.length := by simpa using h
      simp only [List.map_cons]
      rw [show ((k + 1 : Nat) : Int) = (k : Int) + 1 by push_cast; ring]
      simp only [read_exactly]
      rw [if_neg (by omega), if_neg (by simp)]
      have hc : (k : Int) + 1 - ((List.length [b] : Nat) : Int) = (k : Int) := by
        simp
      rw [hc, ih bs (acc ++ [b]) h']
      simp

theorem tcp_frame_roundtrip (what : Bytes) (hle : what.length ≤ 65535)
    (expiration : Option ℚ) :
    ∃ call n, send_tcp what expiration = .ok (call, n) ∧
      receiveTcpWire (call.data.map fun b => [b]) = .ok (what, []) := by
  refine ⟨{ data := [what.length / 256, what.length % 256] ++ what,
            timeoutArg := expiration }, ([what.length / 256, what.length % 256] ++ what).length,
          ?_, ?_⟩
  · simp [send_tcp, pack16be, hle]
  · have hdata : (([what.length / 256, what.length % 256] ++ what) : Bytes) =
        what.length / 256 :: what.length % 256 :: what := by simp
    simp only [hdata]
    have h2 : (2 : Nat) ≤ (what.length / 256 :: what.length % 256 :: what).length := by
      simp
    have hr2 := read_exactly_singletons 2 (what.length / 256 :: what.length % 256 :: what) [] h2
    simp only [receiveTcpWire, readExact]
    rw [show ((2 : Nat) : Int) = (2 : Int) by norm_num] at hr2
    rw [hr2]
    have htake : (what.length / 256 :: what.length % 256 :: what).take 2 =
        [what.length / 256, what.length % 256] := by rfl
    have hdrop : (what.length / 256 :: what.length % 256 :: what).drop 2 = what := by rfl
    rw [htake, hdrop]
    have hunpack : unpack16be [what.length / 256, what.length % 256] = what.length := by
      simp only [unpack16be]
      omega
    dsimp only
    simp only [List.nil_append]
    rw [hunpack]
    rw [read_exactly_singletons what.length what [] (le_refl _)]
    simp

theorem acceptReply_iff (isM : String → Bool) (dest fromAddr : HLAddr) :
    acceptReply isM dest fromAddr = true ↔
      fromAddr = dest ∨ (isM dest.addr = true ∧ fromAddr.port = dest.port) := by
  simp [acceptReply]

theorem receiveUdpLoop_ok (isM : String → Bool) (dest : HLAddr) (ign : Bool)
    (dgrams : List (Bytes × HLAddr)) :
    ∀ (wire : Bytes) (fromAddr : HLAddr),
      receiveUdpLoop isM dest ign dgrams = .ok (wire, fromAddr) →
      (wire, fromAddr) ∈ dgrams ∧ acceptReply isM dest fromAddr = true := by
  induction dgrams with
  | nil =>
    intro wire fromAddr h
    simp [receiveUdpLoop] at h
  | cons d rest ih =>
    intro wire fromAddr h
    obtain ⟨w, f⟩ := d
    simp only [receiveUdpLoop] at h
    split at h
    · rename_i hacc
      simp only [Except.ok.injEq, Prod.mk.injEq] at h
      obtain ⟨rfl, rfl⟩ := h
      exact ⟨List.mem_cons_self _ _, hacc⟩
    · rename_i hacc
      split at h
      · have := ih wire fromAddr h
        exact ⟨List.mem_cons_of_mem _ this.1, this.2⟩
      · exact Except.noConfusion h

theorem receiveUdpLoop_unexpected (isM : String → Bool) (dest : HLAddr) (ign : Bool)
    (dgrams : List (Bytes × HLAddr)) :
    ∀ (a b : HLAddr),
      receiveUdpLoop isM dest ign dgrams = .error (.unexpectedSource a b) →
      b = dest ∧ ign = false ∧ acceptReply isM dest a = false := by
  induction dgrams with
  | nil =>
    intro a b h
    simp [receiveUdpLoop] at h
  | cons d rest ih =>
    intro a b h
    obtain ⟨w, f⟩ := d
    simp only [receiveUdpLoop] at h
    split at h
    · exact Except.noConfusion h
    · rename_i hacc
      split at h
      · exact ih a b h
      · rename_i hign
        simp only [Except.error.injEq, Exc.unexpectedSource.injEq] at h
        obtain ⟨rfl, rfl⟩ := h
        refine ⟨rfl, by simpa using hign, by simpa using hacc⟩

theorem tcpTail_filter_isClose (s : SockId) (owns : Bool) (env : TcpEnv) :
    (tcpTail s owns env).2.filter isClose = closeIfOwned owns s := by
  obtain ⟨peerRes, afRes, makeRes, sendRes, recvRes, isResponse⟩ := env
  have hc : (closeIfOwned owns s).filter isClose = closeIfOwned owns s := by
    cases owns <;> simp [closeIfOwned, isClose]
  unfold tcpTail
  rcases sendRes with e | u
  · simpa [isClose] using hc
  · rcases recvRes with e2 | r
    · simpa [isClose] using hc
    · dsimp only
      split <;> simpa [isClose] using hc

theorem tcpTail_streamCtxArgs (s : SockId) (owns : Bool) (env : TcpEnv) :
    streamCtxArgs (tcpTail s owns env).2 = [] := by
  obtain ⟨peerRes, afRes, makeRes, sendRes, recvRes, isResponse⟩ := env
  unfold tcpTail
  rcases sendRes with e | u
  · cases owns <;> simp [streamCtxArgs, closeIfOwned]
  · rcases recvRes with e2 | r
    · cases owns <;> simp [streamCtxArgs, closeIfOwned]
    · dsimp only
      split <;> cases owns <;> simp [streamCtxArgs, closeIfOwned]

theorem tcp_caller_sock_filter_isClose (sk : SockId) (source : Option String)
    (sourcePort : Nat) (env : TcpEnv) :
    (tcp (some sk) source sourcePort env).2.filter isClose = [] := by
  unfold tcp
  rcases hp : env.peerRes with e | u
  · simp [isClose]
  · simp [List.filter_cons, isClose, tcpTail_filter_isClose, closeIfOwned]

theorem tcp_caller_sock_streamCtxArgs (sk : SockId) (source : Option String)
    (sourcePort : Nat) (env : TcpEnv) :
    streamCtxArgs (tcp (some sk) source sourcePort env).2 = [] := by
  unfold tcp
  rcases hp : env.peerRes with e | u
  · simp [streamCtxArgs]
  · have h := tcpTail_streamCtxArgs sk false env
    simp only [streamCtxArgs, List.filterMap_cons] at h ⊢
    simpa using h

/-- Claim C7: whenever `_read_exactly(sock, count, expiration)` returns, the
result is exactly `count` bytes accumulated across possibly-partial reads
(under the stream contract that each read returns at most what was asked for,
and never fewer than `count` bytes even without that contract), and a
zero-length read occurring before `count` bytes have accumulated raises
`EOFError` — the end-of-stream signal, distinct from a timeout — rather than
ever returning a short, silently-truncated result. -/
theorem c7_read_exactly_exact_or_eof (count : Int) (chunks : List Bytes) :
    (∀ out rest, chunksFit count chunks = true →
      readExact count chunks = .ok (out, rest) → (out.length : Int) = max count 0) ∧
    (∀ out rest, readExact count chunks = .ok (out, rest) → count ≤ (out.length : Int)) ∧
    (readExact count chunks = .error .eofErr ↔ hitsEof count chunks = true) := by
  refine ⟨?_, ?_, ?_⟩
  · intro out rest hfit h
    have := read_exactly_ok_exact chunks count [] out rest hfit h
    simpa using this
  · intro out rest h
    have := read_exactly_ok_length chunks count [] out rest h
    simpa using this
  · exact read_exactly_eof_iff chunks count []

/-- Witness for C7 at concrete inputs: reading 3 bytes delivered as the chunks
`[1,2]` then `[3]` yields exactly the 3 bytes `[1,2,3]`, and a stream that
closes (empty read) after 1 of 2 owed bytes raises `EOFError`. -/
theorem c7_witness :
    ((([1, 2, 3] : Bytes).length : Int) = max 3 0) ∧
    ((3 : Int) ≤ (([1, 2, 3] : Bytes).length : Int)) ∧
    readExact 2 [[1], []] = .error .eofErr := by
  refine ⟨?_, ?_, ?_⟩
  · exact (c7_read_exactly_exact_or_eof 3 [[1, 2], [3]]).1 [1, 2, 3] [] (by decide) (by rfl)
  · exact (c7_read_exactly_exact_or_eof 3 [[1, 2], [3]]).2.1 [1, 2, 3] [] (by rfl)
  · exact (c7_read_exactly_exact_or_eof 2 [[1], []]).2.2.mpr (by decide)

/-- Claim C10: a payload longer than 65535 bytes makes `send_tcp` fail in
`struct.pack("!H", l)` before any bytes are sent (no `sendall` call record is
produced), and conversely every framed payload ever handed to `sendall` is at
most 65535 bytes, framed as exactly 2 header bytes plus the payload. -/
theorem c10_send_tcp_length_limit (what : Bytes) (expiration : Option ℚ) :
    (what.length > 65535 → send_tcp what expiration = .error .structErr) ∧
    (∀ call n, send_tcp what expiration = .ok (call, n) →
      what.length ≤ 65535 ∧ call.data = [what.length / 256, what.length % 256] ++ what ∧
        call.data.length = 2 + what.length) := by
  by_cases hle : what.length ≤ 65535
  · refine ⟨fun h => absurd hle (by omega), fun call n h => ?_⟩
    simp only [send_tcp, pack16be, if_pos hle, Except.ok.injEq, Prod.mk.injEq] at h
    obtain ⟨hcall, hn⟩ := h
    subst hcall
    exact ⟨hle, rfl, by simp; omega⟩
  · refine ⟨fun _ => ?_, fun call n h => ?_⟩
    · simp only [send_tcp, pack16be, if_neg hle]
    · simp only [send_tcp, pack16be, if_neg hle] at h
      exact Except.noConfusion h

/-- Witness for C10: a 65536-byte payload is rejected by the length packing. -/
theorem c10_witness :
    send_tcp (List.replicate 65536 0) none = .error .structErr ∧
    (List.replicate 65536 (0 : Nat)).length > 65535 := by
  have h : (List.replicate 65536 (0 : Nat)).length > 65535 := by
    rw [List.length_replicate]
    omega
  exact ⟨(c10_send_tcp_length_limit (List.replicate 65536 0) none).1 h, h⟩

/-- Claim C8: framing a payload of length 0, 1, or 65535 with `send_tcp` (a
2-byte big-endian length header followed immediately by the payload bytes) and
reading the resulting byte stream back with `_read_exactly`/`receive_tcp`
yields exactly the original payload, with the stream fully consumed. -/
theorem c8_tcp_frame_roundtrip (what : Bytes)
    (h : what.length = 0 ∨ what.length = 1 ∨ what.length = 65535)
    (expiration : Option ℚ) :
    ∃ call n, send_tcp what expiration = .ok (call, n) ∧
      receiveTcpWire (call.data.map fun b => [b]) = .ok (what, []) :=
  tcp_frame_roundtrip what (by rcases h with h | h | h <;> omega) expiration

/-- Witness for C8 at the concrete one-byte payload `[7]`. -/
theorem c8_witness :
    (([7] : Bytes).length = 0 ∨ ([7] : Bytes).length = 1 ∨ ([7] : Bytes).length = 65535) ∧
    (∃ call n, send_tcp [7] none = .ok (call, n) ∧
      receiveTcpWire (call.data.map fun b => [b]) = .ok ([7], [])) :=
  ⟨Or.inr (Or.inl rfl), c8_tcp_frame_roundtrip [7] (Or.inr (Or.inl rfl)) none⟩

/-- Claim C9 counterexample: with no source address and a zero (falsy) source
port, an unrecognized address family does not raise at all — `_source_tuple`
just returns `None`, so the claim "whenever no explicit source address is
given and the family is unrecognized, a not-implemented error is raised" fails
at this input. -/
theorem c9_counterexample :
    source_tuple (AF.other 99) none 0 = .ok none := by rfl

/-- Claim C9 (amended): building the source tuple raises the not-implemented
error exactly when no source address is given, a truthy (nonzero) source port
is given, and the family is neither `AF_INET` nor `AF_INET6` — and then the
exchange surfaces it immediately, before any transport is attempted (the `udp`
exchange returns the error with an empty effect trace); when address and port
are both unset/falsy, no source tuple is built and no error is raised,
whatever the family. -/
theorem c9_source_tuple_not_implemented (af : AF) (port n : Nat)
    (hp : port ≠ 0) (hn : af = AF.other n) :
    source_tuple af none port = .error .notImplementedErr ∧
    source_tuple af none 0 = .ok none ∧
    (∀ env : UdpEnv, env.afRes = .ok af →
      udp none none port env = (.error .notImplementedErr, [])) := by
  subst hn
  have h1 : source_tuple (AF.other n) none port = .error .notImplementedErr := by
    simp [source_tuple, addrTruthy, hp]
  refine ⟨h1, by simp [source_tuple, addrTruthy], ?_⟩
  intro env haf
  obtain ⟨afRes, makeRes, sendRes, recvRes, isResponse⟩ := env
  simp only at haf
  subst haf
  unfold udp
  simp [h1]

/-- Witness for C9 at a concrete unknown family and nonzero port. -/
theorem c9_witness :
    source_tuple (AF.other 7) none 3 = .error .notImplementedErr ∧
    source_tuple (AF.other 7) none 0 = .ok none ∧
    udp none none 3 { sampleUdpEnv with afRes := .ok (AF.other 7) } =
      (.error .notImplementedErr, []) := by
  have h := c9_source_tuple_not_implemented (AF.other 7) 3 7 (by decide) rfl
  exact ⟨h.1, h.2.1, h.2.2 { sampleUdpEnv with afRes := .ok (AF.other 7) } rfl⟩

/-- Claim C5: a datagram read by `receive_udp` is accepted exactly when its
source equals the expected destination, or the destination address is a
multicast group and the datagram's port matches; otherwise, with
`ignore_unexpected` set it is discarded and the loop reads the next datagram,
and with it unset an `UnexpectedSource` error naming both addresses is raised.
Consequently any reply the loop returns passed the acceptance test, and any
`UnexpectedSource` error names the offending source and the destination, with
the source having passed neither test. -/
theorem c5_receive_udp_filter (isM : String → Bool) (dest : HLAddr) (ign : Bool) :
    (∀ (wire : Bytes) (fromAddr : HLAddr) (rest : List (Bytes × HLAddr)),
      receiveUdpLoop isM dest ign ((wire, fromAddr) :: rest) =
        if fromAddr = dest ∨ (isM dest.addr = true ∧ fromAddr.port = dest.port) then
          .ok (wire, fromAddr)
        else if ign = true then receiveUdpLoop isM dest ign rest
        else .error (.unexpectedSource fromAddr dest)) ∧
    (∀ (dgrams : List (Bytes × HLAddr)) (wire : Bytes) (fromAddr : HLAddr),
      receiveUdpLoop isM dest ign dgrams = .ok (wire, fromAddr) →
        (wire, fromAddr) ∈ dgrams ∧
          (fromAddr = dest ∨ (isM dest.addr = true ∧ fromAddr.port = dest.port))) ∧
    (∀ (dgrams : List (Bytes × HLAddr)) (a b : HLAddr),
      receiveUdpLoop isM dest ign dgrams = .error (.unexpectedSource a b) →
        b = dest ∧ ign = false ∧
          ¬(a = dest ∨ (isM dest.addr = true ∧ a.port = dest.port))) := by
  refine ⟨?_, ?_, ?_⟩
  · intro wire fromAddr rest
    by_cases hacc : fromAddr = dest ∨ (isM dest.addr = true ∧ fromAddr.port = dest.port)
    · rw [if_pos hacc]
      have hb : acceptReply isM dest fromAddr = true := (acceptReply_iff isM dest fromAddr).mpr hacc
      simp [receiveUdpLoop, hb]
    · rw [if_neg hacc]
      have hb : ¬ acceptReply isM dest fromAddr = true :=
        fun hc => hacc ((acceptReply_iff isM dest fromAddr).mp hc)
      simp only [receiveUdpLoop, hb, if_false, Bool.false_eq_true]
  · intro dgrams wire fromAddr h
    have := receiveUdpLoop_ok isM dest ign dgrams wire fromAddr h
    exact ⟨this.1, (acceptReply_iff isM dest fromAddr).mp this.2⟩
  · intro dgrams a b h
    have := receiveUdpLoop_unexpected isM dest ign dgrams a b h
    refine ⟨this.1, this.2.1, fun hc => ?_⟩
    have := this.2.2
    rw [(acceptReply_iff isM dest a).mpr hc] at this
    exact Bool.noConfusion this

/-- Witness for C5 at concrete datagrams: a reply from the destination itself
is returned, and a reply from a stranger with `ignore_unexpected` unset raises
`UnexpectedSource` naming stranger and destination. -/
theorem c5_witness :
    (([1], (⟨"192.0.2.1", 53⟩ : HLAddr)) ∈ [(([1] : Bytes), (⟨"192.0.2.1", 53⟩ : HLAddr))] ∧
      ((⟨"192.0.2.1", 53⟩ : HLAddr) = ⟨"192.0.2.1", 53⟩ ∨
        ((fun _ => false) (⟨"192.0.2.1", 53⟩ : HLAddr).addr = true ∧
          (⟨"192.0.2.1", 53⟩ : HLAddr).port = (⟨"192.0.2.1", 53⟩ : HLAddr).port))) ∧
    ((⟨"192.0.2.1", 53⟩ : HLAddr) = ⟨"192.0.2.1", 53⟩ ∧ false = false ∧
      ¬((⟨"10.0.0.9", 99⟩ : HLAddr) = ⟨"192.0.2.1", 53⟩ ∨
        ((fun _ => false) (⟨"192.0.2.1", 53⟩ : HLAddr).addr = true ∧
          (⟨"10.0.0.9", 99⟩ : HLAddr).port = (⟨"192.0.2.1", 53⟩ : HLAddr).port))) := by
  constructor
  · exact (c5_receive_udp_filter (fun _ => false) ⟨"192.0.2.1", 53⟩ true).2.1
      [([1], ⟨"192.0.2.1", 53⟩)] [1] ⟨"192.0.2.1", 53⟩ (by rfl)
  · exact (c5_receive_udp_filter (fun _ => false) ⟨"192.0.2.1", 53⟩ false).2.2
      [([2], ⟨"10.0.0.9", 99⟩)] ⟨"10.0.0.9", 99⟩ ⟨"192.0.2.1", 53⟩ (by rfl)

/-- Claim C4 (refuted by the code): `send_udp` and `_read_exactly` do pass a
freshly computed `max(expiration - now, 0)` budget to their socket calls, but
`receive_udp` passes `recvfrom` no time budget at all, and `send_tcp` passes
`sendall` the raw absolute expiration instead of a remaining budget — with
expiration 1000 and current time 999 the fresh budget would be 1, not 1000. -/
theorem c4_io_timeout_arguments :
    (∀ (expiration : Option ℚ) (sentTime : ℚ),
      sendtoTimeoutArg expiration sentTime = .passed (timeoutRemaining expiration sentTime)) ∧
    (∀ (expiration : Option ℚ) (now : ℚ),
      recvTimeoutArg expiration now = .passed (timeoutRemaining expiration now)) ∧
    recvfromTimeoutArg = .omitted ∧
    send_tcp [0] (some 1000) = .ok ({ data := [0, 1, 0], timeoutArg := some 1000 }, 3) ∧
    timeoutRemaining (some 1000) 999 = some 1 ∧
    (some (1000 : ℚ)) ≠ (some (1 : ℚ)) := by
  refine ⟨fun _ _ => rfl, fun _ _ => rfl, rfl, by rfl, ?_, by norm_num⟩
  have h1 : max ((1000 : ℚ) - 999) 0 = 1 := by norm_num
  simp [timeoutRemaining, h1]

/-- Claim C2 (refuted by the code): with a caller-provided datagram socket the
`udp` exchange does not reuse it and proceed to send and receive —
`destination` is assigned only on the socket-creating branch, so the call
raises `UnboundLocalError` while evaluating the arguments of `send_udp`,
before any send, receive or close takes place. -/
theorem c2_udp_caller_socket_crashes (sk : SockId) (source : Option String)
    (sourcePort : Nat) (env : UdpEnv) :
    udp (some sk) source sourcePort env = (.error .unboundLocalDestination, []) := rfl

/-- Claim C1 (refuted by the code): when `tls` is called with no socket and an
explicitly supplied `ssl_context`, the supplied context is not used as-is —
lines 477–479 replace it by `None` and clear the hostname, so every
stream-socket creation the call performs receives context `None` and hostname
`None`; the supplied context value never reaches `make_socket`. -/
theorem c1_tls_supplied_context_discarded (tag : Nat) (serverHostname : Option String)
    (source : Option String) (sourcePort : Nat) (env : TlsEnv) :
    streamCtxArgs
        (tls none (some (CtxV.supplied tag)) serverHostname source sourcePort env).2 = [] ∨
    streamCtxArgs
        (tls none (some (CtxV.supplied tag)) serverHostname source sourcePort env).2 =
      [((none : Option CtxV), (none : Option String))] := by
  obtain ⟨afRes, makeRes, tcpEnv⟩ := env
  unfold tls
  rcases afRes with e | af
  · left
    simp [streamCtxArgs]
  · rcases hst : source_tuple af source sourcePort with e2 | stuple
    · left
      simp [hst, streamCtxArgs]
    · rcases makeRes with e3 | s
      · right
        simp [hst, streamCtxArgs, tlsCtxArgs]
      · right
        have h := tcp_caller_sock_streamCtxArgs s source sourcePort tcpEnv
        simp only [streamCtxArgs, List.filterMap_cons, List.filterMap_append] at h ⊢
        simp [hst, tlsCtxArgs, h]

/-- Claim C6: across the UDP, TCP and TLS exchanges, a socket the exchange
opened itself is closed exactly once on every exit path (success, timeout,
decode failure, bad-response, or any other exception — all covered by
quantifying over the environment outcomes), a caller-supplied socket is never
closed by the exchange regardless of outcome, and a failed socket creation
leaves nothing to close. -/
theorem c6_socket_release (source : Option String) (sourcePort : Nat) :
    (∀ (sk : SockId) (env : UdpEnv),
      (udp (some sk) source sourcePort env).2.filter isClose = []) ∧
    (∀ (env : UdpEnv) (af : AF) (stuple : Option (String × Nat)) (s : SockId),
      env.afRes = .ok af → source_tuple af source sourcePort = .ok stuple →
      env.makeRes = .ok s →
      (udp none source sourcePort env).2.filter isClose = [Effect.close s]) ∧
    (∀ (env : UdpEnv) (e : Exc), env.makeRes = .error e →
      (udp none source sourcePort env).2.filter isClose = []) ∧
    (∀ (sk : SockId) (env : TcpEnv),
      (tcp (some sk) source sourcePort env).2.filter isClose = []) ∧
    (∀ (env : TcpEnv) (af : AF) (stuple : Option (String × Nat)) (s : SockId),
      env.afRes = .ok af → source_tuple af source sourcePort = .ok stuple →
      env.makeRes = .ok s →
      (tcp none source sourcePort env).2.filter isClose = [Effect.close s]) ∧
    (∀ (env : TcpEnv) (e : Exc), env.makeRes = .error e →
      (tcp none source sourcePort env).2.filter isClose = []) ∧
    (∀ (sk : SockId) (ctx : Option CtxV) (hn : Option String) (env : TlsEnv),
      (tls (some sk) ctx hn source sourcePort env).2.filter isClose = []) ∧
    (∀ (ctx : Option CtxV) (hn : Option String) (env : TlsEnv) (af : AF)
        (stuple : Option (String × Nat)) (s : SockId),
      env.afRes = .ok af → source_tuple af source sourcePort = .ok stuple →
      env.makeRes = .ok s →
      (tls none ctx hn source sourcePort env).2.filter isClose = [Effect.close s]) ∧
    (∀ (ctx : Option CtxV) (hn : Option String) (env : TlsEnv) (e : Exc),
      env.makeRes = .error e →
      (tls none ctx hn source sourcePort env).2.filter isClose = []) := by
  refine ⟨?_, ?_, ?_, ?_, ?_, ?_, ?_, ?_, ?_⟩
  · intro sk env
    rfl
  · intro env af stuple s haf hst hmake
    obtain ⟨afRes, makeRes, sendRes, recvRes, isResponse⟩ := env
    simp only at haf hst hmake
    subst haf hmake
    unfold udp
    simp only [hst]
    rcases sendRes with e | u
    · simp [isClose]
    · rcases recvRes with e2 | r
      · simp [isClose]
      · dsimp only
        split <;> simp [isClose]
  · intro env e hmake
    obtain ⟨afRes, makeRes, sendRes, recvRes, isResponse⟩ := env
    simp only at hmake
    subst hmake
    unfold udp
    rcases afRes with e1 | af
    · simp
    · rcases hst : source_tuple af source sourcePort with e2 | stuple
      · simp [hst]
      · simp [hst, isClose]
  · intro sk env
    exact tcp_caller_sock_filter_isClose sk source sourcePort env
  · intro env af stuple s haf hst hmake
    obtain ⟨peerRes, afRes, makeRes, sendRes, recvRes, isResponse⟩ := env
    simp only at haf hst hmake
    subst haf hmake
    unfold tcp
    simp only [hst]
    have h := tcpTail_filter_isClose s true ⟨peerRes, .ok af, .ok s, sendRes, recvRes, isResponse⟩
    simp only [List.filter_cons, isClose] at h ⊢
    simpa [closeIfOwned] using h
  · intro env e hmake
    obtain ⟨peerRes, afRes, makeRes, sendRes, recvRes, isResponse⟩ := env
    simp only at hmake
    subst hmake
    unfold tcp
    rcases afRes with e1 | af
    · simp
    · rcases hst : source_tuple af source sourcePort with e2 | stuple
      · simp [hst]
      · simp [hst, isClose]
  · intro sk ctx hn env
    unfold tls
    exact tcp_caller_sock_filter_isClose sk source sourcePort env.tcpEnv
  · intro ctx hn env af stuple s haf hst hmake
    obtain ⟨afRes, makeRes, tcpEnv⟩ := env
    simp only at haf hst hmake
    subst haf hmake
    unfold tls
    simp only [hst]
    have h := tcp_caller_sock_filter_isClose s source sourcePort tcpEnv
    simp only [List.filter_cons, List.filter_append, isClose] at h ⊢
    simp [h, isClose]
  · intro ctx hn env e hmake
    obtain ⟨afRes, makeRes, tcpEnv⟩ := env
    simp only at hmake
    subst hmake
    unfold tls
    rcases afRes with e1 | af
    · simp
    · rcases hst : source_tuple af source sourcePort with e2 | stuple
      · simp [hst]
      · simp [hst, isClose]

/-- Witness for C6 at concrete environments: each exchange closes its
self-opened socket exactly once, and a caller-supplied socket is left open. -/
theorem c6_witness :
    (udp none none 0 sampleUdpEnv).2.filter isClose = [Effect.close 4] ∧
    (tcp none none 0 sampleTcpEnv).2.filter isClose = [Effect.close 5] ∧
    (tls none none none none 0 sampleTlsEnv).2.filter isClose = [Effect.close 6] ∧
    (udp (some 9) none 0 sampleUdpEnv).2.filter isClose = [] ∧
    (tcp (some 9) none 0 sampleTcpEnv).2.filter isClose = [] := by
  refine ⟨?_, ?_, ?_, ?_, ?_⟩
  · exact (c6_socket_release none 0).2.1 sampleUdpEnv .inet none 4 rfl rfl rfl
  · exact (c6_socket_release none 0).2.2.2.2.1 sampleTcpEnv .inet none 5 rfl rfl rfl
  · exact (c6_socket_release none 0).2.2.2.2.2.2.2.1 none none sampleTlsEnv .inet none 6
      rfl rfl rfl
  · exact (c6_socket_release none 0).1 9 sampleUdpEnv
  · exact (c6_socket_release none 0).2.2.2.1 9 sampleTcpEnv

/-- Claim C3: `udp_with_fallback` issues exactly one TCP exchange — with the
original query and the original full timeout — precisely when the UDP exchange
raises the distinct truncation signal, and then returns the TCP reply flagged
as TCP-obtained (or propagates the TCP failure); a clean UDP reply is returned
flagged false with no TCP exchange, and no UDP exception other than the
truncation signal triggers the fallback. -/
theorem c3_udp_with_fallback (q : Nat) (timeout : Option ℚ)
    (udpSock tcpSock : Option SockId) (source : Option String) (sourcePort : Nat)
    (udpEnv : UdpEnv) (tcpEnv : TcpEnv) :
    (∀ r, (udp udpSock source sourcePort udpEnv).1 = .ok r →
      udp_with_fallback q timeout udpSock tcpSock source sourcePort udpEnv tcpEnv =
        (.ok (r, false), [.udpCall q timeout true])) ∧
    ((udp udpSock source sourcePort udpEnv).1 = .error .truncated →
      (udp_with_fallback q timeout udpSock tcpSock source sourcePort udpEnv tcpEnv).2 =
          [.udpCall q timeout true, .tcpCall q timeout] ∧
        (∀ r, (tcp tcpSock source sourcePort tcpEnv).1 = .ok r →
          (udp_with_fallback q timeout udpSock tcpSock source sourcePort udpEnv tcpEnv).1 =
            .ok (r, true)) ∧
        (∀ e, (tcp tcpSock source sourcePort tcpEnv).1 = .error e →
          (udp_with_fallback q timeout udpSock tcpSock source sourcePort udpEnv tcpEnv).1 =
            .error e)) ∧
    (∀ e, e ≠ Exc.truncated → (udp udpSock source sourcePort udpEnv).1 = .error e →
      udp_with_fallback q timeout udpSock tcpSock source sourcePort udpEnv tcpEnv =
        (.error e, [.udpCall q timeout true])) := by
  refine ⟨?_, ?_, ?_⟩
  · intro r h
    simp [udp_with_fallback, h]
  · intro h
    refine ⟨?_, ?_, ?_⟩
    · rcases htcp : (tcp tcpSock source sourcePort tcpEnv).1 with e | r <;>
        simp [udp_with_fallback, h, htcp]
    · intro r htcp
      simp [udp_with_fallback, h, htcp]
    · intro e htcp
      simp [udp_with_fallback, h, htcp]
  · intro e hne h
    cases e <;> first
      | exact absurd rfl hne
      | simp [udp_with_fallback, h]

/-- Witness for C3 at concrete environments: a clean UDP reply is returned
with no TCP call; a truncated UDP exchange leads to exactly one TCP call with
the original query 1 and timeout 2 and the TCP reply flagged true; a UDP
timeout propagates with no TCP call. -/
theorem c3_witness :
    udp_with_fallback 1 (some 2) none none none 0 sampleUdpEnv sampleTcpEnv =
      (.ok (7, false), [.udpCall 1 (some 2) true]) ∧
    ((udp_with_fallback 1 (some 2) none none none 0 truncUdpEnv sampleTcpEnv).2 =
        [.udpCall 1 (some 2) true, .tcpCall 1 (some 2)] ∧
      (udp_with_fallback 1 (some 2) none none none 0 truncUdpEnv sampleTcpEnv).1 =
        .ok (8, true)) ∧
    udp_with_fallback 1 (some 2) none none none 0 errUdpEnv sampleTcpEnv =
      (.error .timeoutErr, [.udpCall 1 (some 2) true]) := by
  refine ⟨?_, ⟨?_, ?_⟩, ?_⟩
  · exact (c3_udp_with_fallback 1 (some 2) none none none 0 sampleUdpEnv sampleTcpEnv).1
      7 (by rfl)
  · exact ((c3_udp_with_fallback 1 (some 2) none none none 0 truncUdpEnv sampleTcpEnv).2.1
      (by rfl)).1
  · exact ((c3_udp_with_fallback 1 (some 2) none none none 0 truncUdpEnv sampleTcpEnv).2.1
      (by rfl)).2.1 8 (by rfl)
  · exact (c3_udp_with_fallback 1 (some 2) none none none 0 errUdpEnv sampleTcpEnv).2.2
      .timeoutErr (by decide) (by rfl)

end AsyncQuery
